import Mathlib

/-!
# A shallow embedding of scapy's automaton engine (`scapy/automaton.py`)

This file models, in Lean, the declarative protocol-automaton runtime of the
repository: the `ObjectPipe` queue, the `Automaton_metaclass.__new__`
registry-construction pass, and the per-step runtime of class `Automaton`
(`run_condition`, `next`, `start`, `send`, breakpoint management).

Modelling conventions:
* Python dicts that map strings to values are association lists
  (`List (String × β)`); indexing a missing key is a `KeyError`.
* Python exceptions that the engine can raise during the modelled operations
  are the `PyError` inductive; fallible operations return `Except PyError _`.
* Condition / action / state bodies are arbitrary user callables; their only
  interactions with the engine are: return normally, raise
  `ATMT.NewStateRequested`, or raise some other exception.  They are therefore
  modelled by behaviour environments (`condEnv : String → CondBehavior`,
  `actEnv : String → Bool` where `true` means "raises").
* Packet objects are opaque to the engine except for `.copy()`; a `Packet`
  carries a payload (`content`) and an object identity (`ref`); `copy`
  allocates a fresh identity.
* Wall-clock time enters only through the dispatch loop's `time.time()-t0`
  elapsed value, which is passed in as a parameter `t`.
-/

set_option autoImplicit false

universe u

/-- Python exceptions raised by the engine's own code paths. -/
inductive PyError where
  | keyError (k : String)
  | nameError (n : String)
  | indexError
deriving DecidableEq, Repr

/-- `Except.isOk` as a plain boolean. -/
def okB {ε : Type} {α : Type u} : Except ε α → Bool
  | .ok _ => true
  | .error _ => false

/-! ## ObjectPipe (`automaton.py` lines 16-27)

`send` appends the object to `self.queue` and writes one sentinel byte `"X"`
to the OS pipe; `recv` reads one sentinel byte (blocking while none is
available) and pops the left end of the queue.  The pipe's unread byte count
is modelled by `pipeBytes`; a `recv` that would block (or would hit an empty
deque) is `none`. -/

structure ObjectPipe (α : Type) where
  queue : List α
  pipeBytes : Nat
deriving DecidableEq, Repr

/-- `ObjectPipe.__init__`: empty deque, no unread bytes on the fresh pipe. -/
def ObjectPipe.init {α : Type} : ObjectPipe α := ⟨[], 0⟩

/-- `ObjectPipe.send`: `self.queue.append(obj); os.write(self.wr,"X")`. -/
def ObjectPipe.send {α : Type} (p : ObjectPipe α) (obj : α) : ObjectPipe α :=
  { queue := p.queue ++ [obj], pipeBytes := p.pipeBytes + 1 }

/-- `ObjectPipe.recv`: `os.read(self.rd,1); return self.queue.popleft()`. -/
def ObjectPipe.recv {α : Type} (p : ObjectPipe α) : Option (α × ObjectPipe α) :=
  match p.pipeBytes, p.queue with
  | b + 1, x :: xs => some (x, ⟨xs, b⟩)
  | _, _ => none

/-- One operation performed on an `ObjectPipe` by its producer or consumer. -/
inductive PipeOp (α : Type) where
  | send (a : α)
  | recv
deriving DecidableEq, Repr

/-- Run a sequence of pipe operations, collecting the values returned by the
`recv` calls; `none` if some `recv` would have blocked or failed. -/
def runOps {α : Type} : List (PipeOp α) → ObjectPipe α → Option (ObjectPipe α × List α)
  | [], p => some (p, [])
  | .send a :: ops, p => runOps ops (p.send a)
  | .recv :: ops, p =>
    match p.recv with
    | none => none
    | some (x, p') =>
      match runOps ops p' with
      | none => none
      | some (pf, received) => some (pf, x :: received)

/-- The objects passed to `send`, in order. -/
def sentValues {α : Type} : List (PipeOp α) → List α
  | [] => []
  | .send a :: ops => a :: sentValues ops
  | .recv :: ops => sentValues ops

/-- The number of `recv` operations in the sequence. -/
def numRecvs {α : Type} : List (PipeOp α) → Nat
  | [] => 0
  | .send _ :: ops => numRecvs ops
  | .recv :: ops => numRecvs ops + 1

/-- In every prefix of the operation sequence the number of `recv`s never
exceeds `avail` plus the number of earlier `send`s. -/
def recvSafe {α : Type} (avail : Nat) : List (PipeOp α) → Bool
  | [] => true
  | .send _ :: ops => recvSafe (avail + 1) ops
  | .recv :: ops => if avail = 0 then false else recvSafe (avail - 1) ops

/-! ## Association-list helpers (Python dict on string keys) -/

/-- `d[k]` lookup; `none` models a `KeyError`. -/
def dlookup {β : Type u} : List (String × β) → String → Option β
  | [], _ => none
  | (k', v) :: rest, k => if k' = k then some v else dlookup rest k

/-- `d[k] = v`: overwrite the binding if present, append it otherwise. -/
def dinsert {β : Type u} : List (String × β) → String → β → List (String × β)
  | [], k, v => [(k, v)]
  | (k', v') :: rest, k, v =>
    if k' = k then (k, v) :: rest else (k', v') :: dinsert rest k v

/-- `d[k].append(x)`; `none` models the `KeyError` when `k` is unbound. -/
def dappendAt {β : Type u} : List (String × List β) → String → β → Option (List (String × List β))
  | [], _, _ => none
  | (k', vs) :: rest, k, v =>
    if k' = k then some ((k', vs ++ [v]) :: rest)
    else
      match dappendAt rest k v with
      | some rest' => some ((k', vs) :: rest')
      | none => none

/-- `k in d`. -/
def hasKey {β : Type u} : List (String × β) → String → Bool
  | [], _ => false
  | (k', _) :: rest, k => if k' = k then true else hasKey rest k

/-- Boolean list membership for strings. -/
def memB (x : String) : List String → Bool
  | [] => false
  | y :: ys => if y = x then true else memB x ys

/-- Stable insertion into a sorted list (insert after equal keys). -/
def insertLe {α : Type u} (le : α → α → Bool) (a : α) : List α → List α
  | [] => [a]
  | b :: bs => if le b a then b :: insertLe le a bs else a :: b :: bs

/-- Stable ascending sort, modelling Python 2's stable `list.sort(cmp)`. -/
def sortStable {α : Type u} (le : α → α → Bool) (xs : List α) : List α :=
  xs.foldl (fun acc a => insertLe le a acc) []

/-! ## Data model: decorated members (`class ATMT`)

`ATMT.state`, `ATMT.condition`, `ATMT.receive_condition`, `ATMT.ioevent`,
`ATMT.timeout` and `ATMT.action` stamp the decorated function with `atmt_*`
attributes; the metaclass later collects every function that carries
`atmt_type`.  A `Member` is one such stamped function; the callable body
itself is abstracted away (see `CondBehavior`). -/

inductive AtmtType where
  | state
  | action
  | condition
  | recv
  | timeout
  | ioevent
deriving DecidableEq, Repr

/-- A decorated member function with its `atmt_*` attributes. -/
structure Member where
  /-- `func_name` of the decorated function. -/
  name : String
  atmt_type : AtmtType
  /-- For `STATE`: its own state name; for condition kinds: the target state. -/
  atmt_state : String := ""
  atmt_initial : Bool := false
  atmt_final : Bool := false
  atmt_error : Bool := false
  /-- For condition kinds: `f.func_name`. -/
  atmt_condname : String := ""
  atmt_prio : Int := 0
  /-- For `TIMEOUT`: the relative deadline (seconds since state entry). -/
  atmt_timeout : Nat := 0
  /-- For `IOEVENT`: the pipe name. -/
  atmt_ioname : String := ""
  /-- For `ACTION`: the `{condition name → priority}` mapping `atmt_cond`. -/
  atmt_cond : List (String × Int) := []
deriving DecidableEq, Repr

/-- `ATMT.NewStateRequested` as seen by the engine: the requested state's
descriptor attributes (`.state`, `.initial`, `.final`, `.error`). -/
structure StateReq where
  state : String
  initial : Bool
  final : Bool
  error : Bool
deriving DecidableEq, Repr

/-- A packet object: a payload plus an object identity (`ref`), so that
"a copy, not the original reference" is expressible.  `copy` allocates a
fresh identity. -/
structure Packet where
  content : Nat
  ref : Nat
deriving DecidableEq, Repr

/-- `pkt.copy()`: structurally equal payload under a fresh object identity. -/
def Packet.copy (fresh : Nat) (p : Packet) : Packet := ⟨p.content, fresh⟩

/-- An opaque Python value produced by a state body. -/
inductive Value where
  | obj (n : Nat)
  | pkt (p : Packet)
deriving DecidableEq, Repr

/-- The raw return value of a state body: `None`, a list, or a single value. -/
inductive RawOutput where
  | noneV
  | single (v : Value)
  | listV (vs : List Value)
deriving DecidableEq, Repr

/-- Output normalization in `Automaton.next` (lines 376-379): `None` becomes
the empty tuple, a list passes through, anything else becomes a 1-tuple. -/
def normalizeOutput : RawOutput → List Value
  | .noneV => []
  | .single v => [v]
  | .listV vs => vs

/-! ## Registry construction (`Automaton_metaclass.__new__`, lines 129-192)

The metaclass walks the class and its bases collecting every function that
carries an `atmt_type` tag; the resulting ordered collection of decorated
members is the input `ms` below.  Construction is two passes over `ms`
followed by the sorting phase.  `Registry` is the class-attribute dictionary
state between the passes (timeout lists still raw `(deadline, func)` pairs);
`FinalRegistry` is the state after the sorting phase, where each timeout list
is sorted and terminated by the `(None, None)` sentinel. -/

structure Registry where
  states : List (String × Member)
  recv_conditions : List (String × List Member)
  conditions : List (String × List Member)
  ioevents : List (String × List Member)
  timeout : List (String × List (Nat × Member))
  actions : List (String × List Member)
  initial_states : List Member
  ionames : List String
deriving DecidableEq, Repr

/-- The freshly reset class attributes (lines 132-140). -/
def emptyRegistry : Registry :=
  { states := [], recv_conditions := [], conditions := [], ioevents := []
    timeout := [], actions := [], initial_states := [], ionames := [] }

/-- First pass over the decorated members (lines 154-165): states create
their (empty) per-state lists and are collected into `initial_states`;
every condition kind creates an empty `actions` entry. -/
def applyPass1 (r : Registry) (m : Member) : Registry :=
  match m.atmt_type with
  | .state =>
    { r with states := dinsert r.states m.atmt_state m
             recv_conditions := dinsert r.recv_conditions m.atmt_state []
             ioevents := dinsert r.ioevents m.atmt_state []
             conditions := dinsert r.conditions m.atmt_state []
             timeout := dinsert r.timeout m.atmt_state []
             initial_states :=
               if m.atmt_initial then r.initial_states ++ [m] else r.initial_states }
  | .condition | .recv | .timeout | .ioevent =>
    { r with actions := dinsert r.actions m.atmt_condname [] }
  | .action => r

def pass1 : List Member → Registry → Registry
  | [], r => r
  | m :: ms, r => pass1 ms (applyPass1 r m)

/-- `for c in m.atmt_cond: cls.actions[c].append(m)` (lines 177-179). -/
def appendActions (m : Member) : Registry → List (String × Int) → Except PyError Registry
  | r, [] => .ok r
  | r, (c, _) :: rest =>
    match dappendAt r.actions c m with
    | none => .error (.keyError c)
    | some acts => appendActions m { r with actions := acts } rest

/-- Second pass over the decorated members (lines 167-179): file each
condition under its target state and each action under its condition names.
An unknown state or condition name is a `KeyError`. -/
def applyPass2 (r : Registry) (m : Member) : Except PyError Registry :=
  match m.atmt_type with
  | .condition =>
    match dappendAt r.conditions m.atmt_state m with
    | none => .error (.keyError m.atmt_state)
    | some d => .ok { r with conditions := d }
  | .recv =>
    match dappendAt r.recv_conditions m.atmt_state m with
    | none => .error (.keyError m.atmt_state)
    | some d => .ok { r with recv_conditions := d }
  | .ioevent =>
    match dappendAt r.ioevents m.atmt_state m with
    | none => .error (.keyError m.atmt_state)
    | some d => .ok { r with ioevents := d, ionames := r.ionames ++ [m.atmt_ioname] }
  | .timeout =>
    match dappendAt r.timeout m.atmt_state (m.atmt_timeout, m) with
    | none => .error (.keyError m.atmt_state)
    | some d => .ok { r with timeout := d }
  | .action => appendActions m r m.atmt_cond
  | .state => .ok r

def pass2 : List Member → Registry → Except PyError Registry
  | [], r => .ok r
  | m :: ms, r =>
    match applyPass2 r m with
    | .error e => .error e
    | .ok r' => pass2 ms r'

/-- Registry tables after the sorting phase (lines 182-190). -/
structure FinalRegistry where
  states : List (String × Member)
  recv_conditions : List (String × List Member)
  conditions : List (String × List Member)
  ioevents : List (String × List Member)
  /-- Timeout lists sorted ascending by deadline, `(None, None)` sentinel last. -/
  timeout : List (String × List (Option Nat × Option Member))
  actions : List (String × List Member)
  initial_states : List Member
  ionames : List String
deriving DecidableEq, Repr

def leDeadline (a b : Nat × Member) : Bool := a.1 ≤ b.1

def lePrio (a b : Member) : Bool := a.atmt_prio ≤ b.atmt_prio

/-- Action ordering for condition `c`: by `m.atmt_cond[c]`. -/
def leActPrio (c : String) (a b : Member) : Bool :=
  ((dlookup a.atmt_cond c).getD 0) ≤ ((dlookup b.atmt_cond c).getD 0)

/-- The sorting phase (lines 182-190): each timeout list is sorted by
deadline and `(None, None)` appended; condition lists are sorted by
`atmt_prio`; each action list by that condition's action priority. -/
def finalize (r : Registry) : FinalRegistry :=
  { states := r.states
    recv_conditions := r.recv_conditions.map (fun p => (p.1, sortStable lePrio p.2))
    conditions := r.conditions.map (fun p => (p.1, sortStable lePrio p.2))
    ioevents := r.ioevents.map (fun p => (p.1, sortStable lePrio p.2))
    timeout := r.timeout.map (fun p =>
      (p.1, (sortStable leDeadline p.2).map (fun e => (some e.1, some e.2)) ++ [(none, none)]))
    actions := r.actions.map (fun p => (p.1, sortStable (leActPrio p.1) p.2))
    initial_states := r.initial_states
    ionames := r.ionames }

/-- `Automaton_metaclass.__new__` on the ordered list of decorated members. -/
def buildRegistry (ms : List Member) : Except PyError FinalRegistry :=
  match pass2 ms (pass1 ms emptyRegistry) with
  | .error e => .error e
  | .ok r => .ok (finalize r)

/-- The state names declared in a member list, in order. -/
def stateNames : List Member → List String
  | [] => []
  | m :: ms =>
    if m.atmt_type = .state then m.atmt_state :: stateNames ms else stateNames ms

/-- `true` for the four condition kinds that register an `actions` entry. -/
def isCondLike : AtmtType → Bool
  | .condition | .recv | .timeout | .ioevent => true
  | _ => false

/-- The condition names declared in a member list, in order. -/
def condNames : List Member → List String
  | [] => []
  | m :: ms =>
    if isCondLike m.atmt_type then m.atmt_condname :: condNames ms else condNames ms

/-- The members marked as initial states, in the order of the member list. -/
def initialStateMembers : List Member → List Member
  | [] => []
  | m :: ms =>
    if m.atmt_type = .state ∧ m.atmt_initial then m :: initialStateMembers ms
    else initialStateMembers ms

/-- All of `m`'s references resolve against the declarations in `ms`:
a condition kind names a declared state, an action names declared
conditions. -/
def memberRefsOk (ms : List Member) (m : Member) : Bool :=
  match m.atmt_type with
  | .condition | .recv | .ioevent | .timeout => memB m.atmt_state (stateNames ms)
  | .action => m.atmt_cond.all (fun c => memB c.1 (condNames ms))
  | .state => true

/-- Every member's references resolve. -/
def refsValid (ms : List Member) : Bool := ms.all (memberRefsOk ms)

/-! ## Automaton runtime (`class Automaton`, lines 239-465)

`Automaton` below is the *instance* state mutated at run time; the class-level
dispatch tables are the `FinalRegistry` passed to each operation.  The session
log `packets` (a `PacketList` in the source) is a list of `Packet`s; `sent`
records the packets handed to `send_sock.send` by `my_send`; `nextRef` is the
freshness source for the object identities allocated by `pkt.copy()`. -/

structure Automaton where
  running : Bool
  breakpointed : Option String
  breakpoints : List String
  debug_level : Nat
  store_packets : Nat
  /-- `self.state`: the current `NewStateRequested` (class attribute `None`
  before `start`, modelled by a blank request). -/
  state : StateReq
  /-- `self.packets`: the session log. -/
  packets : List Packet
  /-- Packets handed to the send socket by `my_send`. -/
  sent : List Packet
  /-- Freshness source for object identities allocated by `Packet.copy`. -/
  nextRef : Nat
deriving DecidableEq, Repr

/-- `Automaton.__init__` (lines 264-283): flags cleared, empty breakpoint
set, then `parse_args` defaults `debug=0, store=1`. -/
def initAutomaton : Automaton :=
  { running := false, breakpointed := none, breakpoints := [], debug_level := 0
    store_packets := 1, state := ⟨"", false, false, false⟩, packets := []
    sent := [], nextRef := 0 }

/-- `Automaton.parse_args` (lines 304-307): records the `debug` and `store`
parameters (`self.debug_level`, `self.store_packets`). -/
def Automaton.parse_args (self : Automaton) (debug store : Nat) : Automaton :=
  { self with debug_level := debug, store_packets := store }

/-- `Automaton.master_filter` (lines 310-311): the default accepts every
packet. -/
def Automaton.master_filter (_self : Automaton) (_pkt : Packet) : Bool := true

/-- A breakpoint argument: either a state function (unwrapped through its
`atmt_state` attribute) or a plain state name. -/
inductive BpRef where
  | func (m : Member)
  | name (s : String)
deriving DecidableEq, Repr

/-- `if hasattr(bp,"atmt_state"): bp = bp.atmt_state`. -/
def BpRef.resolve : BpRef → String
  | .func m => m.atmt_state
  | .name s => s

/-- Set insertion for the breakpoint set. -/
def setAdd (s : List String) (x : String) : List String :=
  if x ∈ s then s else s ++ [x]

/-- `Automaton.add_breakpoints` (lines 328-332). -/
def Automaton.add_breakpoints (self : Automaton) (bps : List BpRef) : Automaton :=
  bps.foldl (fun st bp => { st with breakpoints := setAdd st.breakpoints bp.resolve }) self

/-- `Automaton.remove_breakpoints` (lines 334-339).  Faithful to the source:
when the resolved breakpoint IS in the set, the body executes
`self.breakpoints.remove(pb)` where the local name `pb` was never bound
(the source writes `pb` where `bp` was intended), so Python raises
`NameError`; when it is absent, the guard skips the call. -/
def Automaton.remove_breakpoints (self : Automaton) : List BpRef → Except PyError Automaton
  | [] => .ok self
  | bp :: rest =>
    if bp.resolve ∈ self.breakpoints then .error (.nameError "pb")
    else self.remove_breakpoints rest

/-- `Automaton.start` (lines 341-354): set `running`, re-parse parameters,
then `self.state = self.initial_states[0](self)` — an `IndexError` when no
state was marked initial — and create a fresh session log. -/
def Automaton.start (self : Automaton) (reg : FinalRegistry) (debug store : Nat) :
    Except PyError Automaton :=
  let st := { self with running := true }
  let st := st.parse_args debug store
  match reg.initial_states with
  | [] => .error .indexError
  | m :: _ =>
    .ok { st with state := ⟨m.atmt_state, m.atmt_initial, m.atmt_final, m.atmt_error⟩
                  packets := [] }

/-- `Automaton.my_send` (lines 459-460): `self.send_sock.send(pkt)`. -/
def Automaton.my_send (self : Automaton) (pkt : Packet) : Automaton :=
  { self with sent := self.sent ++ [pkt] }

/-- `Automaton.send` (lines 462-465): forward to the send socket, then
`self.packets.append(pkt.copy())`. -/
def Automaton.send (self : Automaton) (pkt : Packet) : Automaton :=
  let st := self.my_send pkt
  { st with packets := st.packets ++ [Packet.copy st.nextRef pkt]
            nextRef := st.nextRef + 1 }

/-- What a condition body does when invoked: return normally, raise
`ATMT.NewStateRequested`, or raise any other exception. -/
inductive CondBehavior where
  | returns
  | requests (req : StateReq)
  | raises
deriving DecidableEq, Repr

/-- The outcome of `run_condition` as seen by its caller. -/
inductive RunCondResult where
  | notTaken
  | taken (req : StateReq)
  | exn
deriving DecidableEq, Repr

/-- `Automaton.run_condition` (lines 313-325).  `behavior` is what the
condition body did when called; `pktArg` is `args[0]` (the triggering packet
when `cond` is a receive condition).  When the body raised
`NewStateRequested`: a receive condition first appends the *original* packet
object to the session log, then the actions registered for the condition run
in order — an action that raises aborts everything (its exception, or the
`KeyError` of a missing actions entry, propagates; modelled `.exn`) — and
finally the `NewStateRequested` is re-raised (`.taken`). -/
def Automaton.run_condition (self : Automaton) (reg : FinalRegistry) (cond : Member)
    (behavior : CondBehavior) (actEnv : String → Bool) (pktArg : Option Packet) :
    Automaton × RunCondResult :=
  match behavior with
  | .returns => (self, .notTaken)
  | .raises => (self, .exn)
  | .requests req =>
    let st :=
      if cond.atmt_type = AtmtType.recv then
        { self with packets := self.packets ++ [pktArg.getD ⟨0, 0⟩] }
      else self
    match dlookup reg.actions cond.atmt_condname with
    | none => (st, .exn)
    | some acts =>
      match acts.find? (fun a => actEnv a.name) with
      | some _ => (st, .exn)
      | none => (st, .taken req)

/-- Outcome of running a list of conditions in order: `none` when none of
them fired. -/
inductive CondsOutcome where
  | taken (req : StateReq)
  | exnR
deriving DecidableEq, Repr

/-- Run conditions in order through `run_condition`, stopping at the first
transition request or propagating exception (the `for` loops at lines
382-383 and 419-420). -/
def runCondsList (reg : FinalRegistry) (condEnv : String → CondBehavior)
    (actEnv : String → Bool) (pktArg : Option Packet) :
    Automaton → List Member → Automaton × Option CondsOutcome
  | st, [] => (st, none)
  | st, c :: cs =>
    match st.run_condition reg c (condEnv c.atmt_condname) actEnv pktArg with
    | (st', .notTaken) => runCondsList reg condEnv actEnv pktArg st' cs
    | (st', .taken req) => (st', some (.taken req))
    | (st', .exn) => (st', some .exnR)

/-- How one call to `Automaton.next` ends, up to the point where it would
block in the dispatch loop's `select` (the loop tail is modelled separately
by `timeoutPhase` / `handlePacket`). -/
inductive StepOutcome where
  | breakpointHit (s : String)
  | errorState (v : RawOutput)
  | stopIteration (v : RawOutput)
  | stuck (v : List Value)
  | transition (req : StateReq)
  | exn
  | enterLoop (v : List Value)
deriving DecidableEq, Repr

/-- `Automaton.next` (lines 356-389 plus the `except NewStateRequested`
handler at 429-432): breakpoint check, state body, error/final checks,
output normalization, immediate conditions, stuck detection; `.enterLoop`
marks the entry into the blocking dispatch loop (line 392 onward).
`bodyOutput` is the value returned by `self.state.run()`. -/
def Automaton.next (self : Automaton) (reg : FinalRegistry) (bodyOutput : RawOutput)
    (condEnv : String → CondBehavior) (actEnv : String → Bool) :
    Automaton × StepOutcome :=
  if self.state.state ∈ self.breakpoints ∧ self.breakpointed ≠ some self.state.state then
    ({ self with breakpointed := some self.state.state }, .breakpointHit self.state.state)
  else
    let st := { self with breakpointed := none }
    if st.state.error then ({ st with running := false }, .errorState bodyOutput)
    else if st.state.final then ({ st with running := false }, .stopIteration bodyOutput)
    else
      let out := normalizeOutput bodyOutput
      match dlookup reg.conditions st.state.state with
      | none => (st, .exn)
      | some conds =>
        match runCondsList reg condEnv actEnv none st conds with
        | (st', some (.taken req)) => ({ st' with state := req }, .transition req)
        | (st', some .exnR) => (st', .exn)
        | (st', none) =>
          match dlookup reg.recv_conditions st.state.state,
                dlookup reg.ioevents st.state.state,
                dlookup reg.timeout st.state.state with
          | some rcs, some ios, some tms =>
            if rcs.length = 0 ∧ ios.length = 0 ∧ tms.length = 1 then (st', .stuck out)
            else (st', .enterLoop out)
          | _, _, _ => (st', .exn)

/-- The timeout phase at the top of one dispatch-loop iteration (lines
402-410), given the elapsed time `t` since state entry and the remaining
expiration cursor (whose head is the current `(next_timeout, timeout_func)`).
Returns the timeout members invoked before this iteration's `select` call,
the advanced cursor, and the `remain` argument passed to `select`. -/
def timeoutPhase (t : Nat) (cursor : List (Option Nat × Option Member)) :
    List Member × List (Option Nat × Option Member) × Option Int :=
  let fired : List Member × List (Option Nat × Option Member) :=
    match cursor with
    | (some d, some f) :: rest => if d ≤ t then ([f], rest) else ([], cursor)
    | _ => ([], cursor)
  let remain : Option Int :=
    match fired.2 with
    | (some d, _) :: _ => some ((d : Int) - (t : Int))
    | _ => none
  (fired.1, fired.2, remain)

/-- Modelled from the spec's dispatch-loop step 3 ("While `deadline_i` is not
∞ and `deadline_i ≤ t`: invoke `fn_i` …; advance `T`"): the timeout members
the spec requires to be invoked before this iteration's `select` call. -/
def timeoutDrainSpec (t : Nat) : List (Option Nat × Option Member) → List Member
  | (some d, some f) :: rest =>
    if d ≤ t then f :: timeoutDrainSpec t rest else []
  | _ => []

/-- The packet branch of the dispatch loop (lines 414-422): read a packet
from the listening socket; `None` is skipped; otherwise the master filter
decides whether the state's receive conditions are evaluated against it. -/
def handlePacket (reg : FinalRegistry) (filter : Packet → Bool)
    (condEnv : String → CondBehavior) (actEnv : String → Bool)
    (st : Automaton) (pkt : Option Packet) : Automaton × Option CondsOutcome :=
  match pkt with
  | none => (st, none)
  | some p =>
    if filter p then
      match dlookup reg.recv_conditions st.state.state with
      | none => (st, some .exnR)
      | some rcs => runCondsList reg condEnv actEnv (some p) st rcs
    else (st, none)

/-! ## Helper lemmas -/

/-- On a `NewStateRequested`, `run_condition` leaves the automaton unchanged
except for the session-log append done by a receive condition; in particular
`self.state` is never touched. -/
lemma run_condition_requests_fst (self : Automaton) (reg : FinalRegistry) (cond : Member)
    (req : StateReq) (actEnv : String → Bool) (pktArg : Option Packet) :
    (self.run_condition reg cond (.requests req) actEnv pktArg).1
      = if cond.atmt_type = AtmtType.recv then
          { self with packets := self.packets ++ [pktArg.getD ⟨0, 0⟩] }
        else self := by
  cases hl : dlookup reg.actions cond.atmt_condname with
  | none => simp [Automaton.run_condition, hl]
  | some acts =>
    cases hf : acts.find? (fun a => actEnv a.name) with
    | none => simp [Automaton.run_condition, hl, hf]
    | some a => simp [Automaton.run_condition, hl, hf]

/-- If some registered action for the fired condition raises, `run_condition`
ends in a propagating exception. -/
lemma run_condition_requests_snd_exn (self : Automaton) (reg : FinalRegistry) (cond : Member)
    (req : StateReq) (actEnv : String → Bool) (pktArg : Option Packet)
    (acts : List Member) (a : Member)
    (hacts : dlookup reg.actions cond.atmt_condname = some acts)
    (hraise : acts.find? (fun x => actEnv x.name) = some a) :
    (self.run_condition reg cond (.requests req) actEnv pktArg).2 = .exn := by
  simp [Automaton.run_condition, hacts, hraise]

/-- Running a list of conditions that all return normally changes nothing. -/
lemma runCondsList_returns (reg : FinalRegistry) (condEnv : String → CondBehavior)
    (actEnv : String → Bool) (pktArg : Option Packet) (st : Automaton)
    (conds : List Member) (h : ∀ c ∈ conds, condEnv c.atmt_condname = .returns) :
    runCondsList reg condEnv actEnv pktArg st conds = (st, none) := by
  induction conds with
  | nil => rfl
  | cons c cs ih =>
    have hc := h c (List.mem_cons_self c cs)
    simp only [runCondsList, hc, Automaton.run_condition]
    exact ih (fun c' hc' => h c' (List.mem_cons_of_mem c hc'))

/-- A prefix of conditions that all return normally can be dropped. -/
lemma runCondsList_append_returns (reg : FinalRegistry) (condEnv : String → CondBehavior)
    (actEnv : String → Bool) (pktArg : Option Packet) (st : Automaton)
    (cpre rest : List Member) (h : ∀ c ∈ cpre, condEnv c.atmt_condname = .returns) :
    runCondsList reg condEnv actEnv pktArg st (cpre ++ rest)
      = runCondsList reg condEnv actEnv pktArg st rest := by
  induction cpre with
  | nil => rfl
  | cons c cs ih =>
    have hc := h c (List.mem_cons_self c cs)
    simp only [List.cons_append, runCondsList, hc, Automaton.run_condition]
    exact ih (fun c' hc' => h c' (List.mem_cons_of_mem c hc'))

/-! ## C8 — `remove_breakpoints` -/

/-- Claim C8: "For every breakpoint b currently in the breakpoint set, calling
remove_breakpoints(b) returns normally and leaves the breakpoint set equal to
the previous set minus {b}; calling it with a breakpoint not in the set leaves
the set unchanged."  The code violates the first half: the removal line reads
`self.breakpoints.remove(pb)` where `pb` is an unbound name (a typo for `bp`),
so removing a breakpoint that IS in the set raises `NameError`; the
not-in-set path does leave the set unchanged. -/
theorem remove_breakpoints_nameError_bug :
    Automaton.remove_breakpoints { initAutomaton with breakpoints := ["MID"] }
        [BpRef.name "MID"] = .error (.nameError "pb")
    ∧ Automaton.remove_breakpoints { initAutomaton with breakpoints := ["MID"] }
        [BpRef.name "OTHER"] = .ok { initAutomaton with breakpoints := ["MID"] } := by
  constructor <;> rfl

/-! ## C10 — the `store` parameter is recorded but never consulted -/

/-- Claim C10: "The store parameter accepted by parse_args (default 1) is
recorded but never consulted by any operation: for every pair of runs
differing only in the value of store, the session-log behaviour of send and
of receive-condition commits is identical."  `parse_args` records the value
in `store_packets`; `send` and `run_condition` produce identical session
logs (and identical send-socket traffic) under any two values of `store`. -/
theorem store_parameter_unused (st : Automaton) (d a b : Nat) (reg : FinalRegistry)
    (cond : Member) (beh : CondBehavior) (actEnv : String → Bool)
    (pktArg : Option Packet) (pkt : Packet) :
    (st.parse_args d a).store_packets = a
    ∧ ((st.parse_args d a).send pkt).packets = ((st.parse_args d b).send pkt).packets
    ∧ ((st.parse_args d a).send pkt).sent = ((st.parse_args d b).send pkt).sent
    ∧ ((st.parse_args d a).run_condition reg cond beh actEnv pktArg).1.packets
      = ((st.parse_args d b).run_condition reg cond beh actEnv pktArg).1.packets
    ∧ ((st.parse_args d a).run_condition reg cond beh actEnv pktArg).2
      = ((st.parse_args d b).run_condition reg cond beh actEnv pktArg).2 := by
  refine ⟨rfl, rfl, rfl, ?_, ?_⟩ <;> cases beh <;>
    first
    | rfl
    | (rw [run_condition_requests_fst, run_condition_requests_fst]
       by_cases h : cond.atmt_type = AtmtType.recv <;> simp [h, Automaton.parse_args])
    | (cases hl : dlookup reg.actions cond.atmt_condname with
       | none => simp [Automaton.run_condition, hl]
       | some acts =>
         cases hf : acts.find? (fun x => actEnv x.name) with
         | none => simp [Automaton.run_condition, hl, hf]
         | some x => simp [Automaton.run_condition, hl, hf])

/-! ## C9 — the default master filter -/

/-- Claim C9: "The default master_filter returns True for every packet, so
when the automaton class does not override it, every non-null packet read
from the listening socket is evaluated against the current state's receive
conditions."  The default `master_filter` is constantly `True`, and under it
the dispatch loop's packet branch always reaches the receive-condition loop
for a non-null packet. -/
theorem default_master_filter_accepts_all (reg : FinalRegistry) (st : Automaton)
    (condEnv : String → CondBehavior) (actEnv : String → Bool) (p : Packet)
    (rcs : List Member)
    (h : dlookup reg.recv_conditions st.state.state = some rcs) :
    (∀ q : Packet, st.master_filter q = true)
    ∧ handlePacket reg (st.master_filter) condEnv actEnv st (some p)
        = runCondsList reg condEnv actEnv (some p) st rcs := by
  refine ⟨fun _ => rfl, ?_⟩
  simp [handlePacket, Automaton.master_filter, h]

/-! ## Concrete members used by witnesses and counterexamples -/

def stA : Member := { name := "A", atmt_type := .state, atmt_state := "A", atmt_initial := true }

def stB : Member := { name := "B", atmt_type := .state, atmt_state := "B", atmt_initial := true }

/-- The finalized registry of the class declaring exactly the two initial
states `A` and `B` (what `buildRegistry [stA, stB]` computes). -/
def regAB : FinalRegistry :=
  { states := [("A", stA), ("B", stB)]
    recv_conditions := [("A", []), ("B", [])]
    conditions := [("A", []), ("B", [])]
    ioevents := [("A", []), ("B", [])]
    timeout := [("A", [(none, none)]), ("B", [(none, none)])]
    actions := []
    initial_states := [stA, stB]
    ionames := [] }

/-- A started automaton sitting in state `A`. -/
def autoA : Automaton :=
  { initAutomaton with running := true, state := ⟨"A", true, false, false⟩ }

theorem default_master_filter_accepts_all_witness :
    (∀ q : Packet, autoA.master_filter q = true)
    ∧ handlePacket regAB (autoA.master_filter) (fun _ => .returns) (fun _ => false)
        autoA (some ⟨5, 0⟩)
      = runCondsList regAB (fun _ => .returns) (fun _ => false) (some ⟨5, 0⟩) autoA [] :=
  default_master_filter_accepts_all regAB autoA (fun _ => .returns) (fun _ => false)
    ⟨5, 0⟩ [] rfl

/-! ## C6 — session-log fidelity of receive commits and `send` -/

/-- Claim C6: "Every packet that triggered a receive-condition transition is
appended to the session log exactly once, and every call to the public send
operation appends exactly one copy of the packet (a copy, not the original
reference) to the session log."  A firing receive condition appends exactly
the triggering packet object once (even if a later action aborts the
commit); `send` appends exactly one element, a copy: equal payload under a
fresh object identity, hence a different object than the argument. -/
theorem log_fidelity_recv_and_send (reg : FinalRegistry) (st st2 : Automaton)
    (cond : Member) (req : StateReq) (actEnv : String → Bool) (pkt pkt2 : Packet)
    (hrecv : cond.atmt_type = AtmtType.recv)
    (hfresh : pkt2.ref ≠ st2.nextRef) :
    (st.run_condition reg cond (.requests req) actEnv (some pkt)).1.packets
      = st.packets ++ [pkt]
    ∧ (st2.send pkt2).packets = st2.packets ++ [Packet.copy st2.nextRef pkt2]
    ∧ (Packet.copy st2.nextRef pkt2).content = pkt2.content
    ∧ Packet.copy st2.nextRef pkt2 ≠ pkt2 := by
  refine ⟨?_, rfl, rfl, ?_⟩
  · rw [run_condition_requests_fst]
    simp [hrecv]
  · intro h
    exact hfresh ((congrArg Packet.ref h).symm)

def rcvCondA : Member :=
  { name := "rcvA", atmt_type := .recv, atmt_state := "A", atmt_condname := "rcvA" }

theorem log_fidelity_recv_and_send_witness :
    (autoA.run_condition regAB rcvCondA (.requests ⟨"B", true, false, false⟩)
        (fun _ => false) (some ⟨5, 3⟩)).1.packets = autoA.packets ++ [⟨5, 3⟩]
    ∧ (autoA.send ⟨5, 3⟩).packets = autoA.packets ++ [Packet.copy autoA.nextRef ⟨5, 3⟩]
    ∧ (Packet.copy autoA.nextRef ⟨5, 3⟩).content = (⟨5, 3⟩ : Packet).content
    ∧ Packet.copy autoA.nextRef ⟨5, 3⟩ ≠ (⟨5, 3⟩ : Packet) :=
  log_fidelity_recv_and_send regAB autoA autoA rcvCondA ⟨"B", true, false, false⟩
    (fun _ => false) ⟨5, 3⟩ ⟨5, 3⟩ rfl (by decide)

/-! ## C3 — timeout invocation per dispatch-loop iteration -/

def tm1 : Member :=
  { name := "t1", atmt_type := .timeout, atmt_state := "S", atmt_condname := "t1"
    atmt_timeout := 1 }

def tm2 : Member :=
  { name := "t2", atmt_type := .timeout, atmt_state := "S", atmt_condname := "t2"
    atmt_timeout := 2 }

/-- Claim C3 counterexample.  In a state with timeouts at deadlines 1 and 2,
at elapsed time 5 both deadlines have passed, yet the loop iteration invokes
only the first timeout before calling `select` (the code guards the timeout
phase with `if`, not `while`); the spec's drain-all reading would invoke
both.  So "every timeout condition whose deadline is ≤ the elapsed time is
invoked … before the next select call" is false. -/
theorem timeout_single_invocation_cex :
    (timeoutPhase 5 [(some 1, some tm1), (some 2, some tm2), (none, none)]).1 = [tm1]
    ∧ (2 : Nat) ≤ 5
    ∧ tm2 ∉ (timeoutPhase 5 [(some 1, some tm1), (some 2, some tm2), (none, none)]).1
    ∧ timeoutDrainSpec 5 [(some 1, some tm1), (some 2, some tm2), (none, none)]
        = [tm1, tm2] := by
  refine ⟨rfl, by decide, ?_, rfl⟩
  decide

/-- Claim C3 (amended): at the start of every dispatch-loop iteration at most
one timeout condition — the earliest not-yet-fired one, i.e. the head of the
expiration cursor — is invoked before that iteration's select call, and only
when its deadline is ≤ the elapsed time since state entry; no timeout
condition is ever invoked before its deadline has elapsed.  When a further
timeout is already overdue after that one invocation, the loop does not
invoke it: it hands select a negative remaining time (the next deadline
minus the elapsed time), which CPython 2.7's select rejects with an error
rather than waking up immediately. -/
theorem timeoutPhase_at_most_one_never_early (t : Nat)
    (cursor : List (Option Nat × Option Member)) :
    (timeoutPhase t cursor).1.length ≤ 1
    ∧ (∀ f ∈ (timeoutPhase t cursor).1,
        ∃ d rest, cursor = (some d, some f) :: rest ∧ d ≤ t)
    ∧ (∀ d1 f1 d2 f2 rest,
        cursor = (some d1, some f1) :: (some d2, f2) :: rest → d1 ≤ t → d2 < t →
          (timeoutPhase t cursor).2.2 = some ((d2 : Int) - (t : Int))
          ∧ ((d2 : Int) - (t : Int)) < 0) := by
  refine ⟨?_, ?_, ?_⟩
  · unfold timeoutPhase
    cases cursor with
    | nil => simp
    | cons hd rest =>
      obtain ⟨od, of⟩ := hd
      cases od with
      | none => simp
      | some d =>
        cases of with
        | none => simp
        | some f => by_cases hdt : d ≤ t <;> simp [hdt]
  · unfold timeoutPhase
    cases cursor with
    | nil => simp
    | cons hd rest =>
      obtain ⟨od, of⟩ := hd
      cases od with
      | none => simp
      | some d =>
        cases of with
        | none => simp
        | some f =>
          by_cases hdt : d ≤ t
          · simp only [if_pos hdt]
            intro g hg
            simp only [List.mem_singleton] at hg
            exact ⟨d, rest, by rw [hg], hdt⟩
          · simp [if_neg hdt]
  · intro d1 f1 d2 f2 rest hcur hd1 hd2
    subst hcur
    have hneg : ((d2 : Int) - (t : Int)) < 0 := by
      have h2 : (d2 : Int) < (t : Int) := by exact_mod_cast hd2
      omega
    refine ⟨?_, hneg⟩
    simp [timeoutPhase, if_pos hd1]

theorem timeoutPhase_at_most_one_never_early_witness :
    ((timeoutPhase 5 [(some 1, some tm1), (some 2, some tm2), (none, none)]).1.length ≤ 1)
    ∧ (∃ d rest,
        [((some 1 : Option Nat), (some tm1 : Option Member)), (some 2, some tm2), (none, none)]
          = (some d, some tm1) :: rest ∧ d ≤ 5)
    ∧ ((timeoutPhase 5 [(some 1, some tm1), (some 2, some tm2), (none, none)]).2.2
          = some ((2 : Int) - (5 : Int))
        ∧ ((2 : Int) - (5 : Int)) < 0) :=
  ⟨(timeoutPhase_at_most_one_never_early 5
      [(some 1, some tm1), (some 2, some tm2), (none, none)]).1,
   (timeoutPhase_at_most_one_never_early 5
      [(some 1, some tm1), (some 2, some tm2), (none, none)]).2.1 tm1 (by decide),
   (timeoutPhase_at_most_one_never_early 5
      [(some 1, some tm1), (some 2, some tm2), (none, none)]).2.2 1 tm1 2
     (some tm2) [(none, none)] rfl (by decide) (by decide)⟩

/-! ## C4 — stuck detection -/

/-- Claim C4: "For every state whose registered receive-condition list and
I/O-event list are empty and whose timeout list contains only the sentinel
entry, step raises Stuck carrying the state body's output after all
immediate conditions have been evaluated without a transition, rather than
entering the blocking dispatch loop."  Under those table shapes, with no
breakpoint pending and a non-error non-final state whose immediate
conditions all return normally, `next` ends in `.stuck` with the normalized
state output and never reaches `.enterLoop`. -/
theorem next_stuck_when_no_blocking_conditions (reg : FinalRegistry) (st : Automaton)
    (bodyOutput : RawOutput) (condEnv : String → CondBehavior) (actEnv : String → Bool)
    (conds : List Member)
    (hbp : st.state.state ∉ st.breakpoints)
    (herr : st.state.error = false) (hfin : st.state.final = false)
    (hconds : dlookup reg.conditions st.state.state = some conds)
    (himm : ∀ c ∈ conds, condEnv c.atmt_condname = .returns)
    (hrecv : dlookup reg.recv_conditions st.state.state = some [])
    (hio : dlookup reg.ioevents st.state.state = some [])
    (htm : dlookup reg.timeout st.state.state = some [(none, none)]) :
    st.next reg bodyOutput condEnv actEnv
      = ({ st with breakpointed := none }, .stuck (normalizeOutput bodyOutput)) := by
  have h1 : ¬(st.state.state ∈ st.breakpoints ∧ st.breakpointed ≠ some st.state.state) :=
    fun h => hbp h.1
  rw [Automaton.next, if_neg h1]
  simp only [herr, hfin, Bool.false_eq_true, if_false, hconds,
    runCondsList_returns reg condEnv actEnv none _ conds himm, hrecv, hio, htm]
  simp

theorem next_stuck_when_no_blocking_conditions_witness :
    autoA.next regAB RawOutput.noneV (fun _ => .returns) (fun _ => false)
      = ({ autoA with breakpointed := none }, .stuck (normalizeOutput RawOutput.noneV)) :=
  next_stuck_when_no_blocking_conditions regAB autoA RawOutput.noneV
    (fun _ => .returns) (fun _ => false) []
    (by simp [autoA, initAutomaton]) rfl rfl rfl (by simp) rfl rfl rfl


/-! ## C5 — exceptions from actions abort the step, state unchanged -/

/-- Claim C5: "If any action invoked while committing a transition request
raises an exception, that exception propagates out of step unsuppressed and
the automaton's current state is left unchanged at the pre-transition state
(the transition is not committed)."  With an immediate condition firing a
transition whose action list contains a raising action, `next` ends in
`.exn` (the exception is not caught by the `except NewStateRequested`
handler, so `self.state` is never reassigned) and the resulting automaton's
`state` equals the pre-step state. -/
theorem action_exception_aborts_step (reg : FinalRegistry) (st : Automaton)
    (bodyOutput : RawOutput) (condEnv : String → CondBehavior) (actEnv : String → Bool)
    (cpre : List Member) (c : Member) (crest : List Member) (req : StateReq)
    (acts : List Member) (a : Member)
    (hbp : st.state.state ∉ st.breakpoints)
    (herr : st.state.error = false) (hfin : st.state.final = false)
    (hconds : dlookup reg.conditions st.state.state = some (cpre ++ c :: crest))
    (hpre : ∀ c' ∈ cpre, condEnv c'.atmt_condname = .returns)
    (hcond : condEnv c.atmt_condname = .requests req)
    (hacts : dlookup reg.actions c.atmt_condname = some acts)
    (hraise : acts.find? (fun x => actEnv x.name) = some a) :
    (st.next reg bodyOutput condEnv actEnv).2 = .exn
    ∧ (st.next reg bodyOutput condEnv actEnv).1.state = st.state := by
  have h1 : ¬(st.state.state ∈ st.breakpoints ∧ st.breakpointed ≠ some st.state.state) :=
    fun h => hbp h.1
  rcases hsplit : Automaton.run_condition { st with breakpointed := none } reg c
      (.requests req) actEnv none with ⟨st1, r1⟩
  have hr1 : r1 = .exn := by
    have h2 := run_condition_requests_snd_exn { st with breakpointed := none } reg c req
      actEnv none acts a hacts hraise
    rw [hsplit] at h2
    exact h2
  subst hr1
  have hst1 : st1.state = st.state := by
    have h3 := run_condition_requests_fst { st with breakpointed := none } reg c req
      actEnv none
    rw [hsplit] at h3
    by_cases h : c.atmt_type = AtmtType.recv <;> simp [h] at h3 <;> simp [h3]
  have hrun : runCondsList reg condEnv actEnv none { st with breakpointed := none }
      (cpre ++ c :: crest) = (st1, some .exnR) := by
    rw [runCondsList_append_returns reg condEnv actEnv none _ cpre _ hpre]
    simp only [runCondsList, hcond, hsplit]
  have hnext : st.next reg bodyOutput condEnv actEnv = (st1, .exn) := by
    rw [Automaton.next, if_neg h1]
    simp only [herr, hfin, Bool.false_eq_true, if_false, hconds, hrun]
  rw [hnext]
  exact ⟨rfl, hst1⟩

def condA : Member :=
  { name := "cA", atmt_type := .condition, atmt_state := "A", atmt_condname := "cA" }

/-- An action bound to condition `cA` whose body raises. -/
def actBoom : Member := { name := "boom", atmt_type := .action, atmt_cond := [("cA", 0)] }

/-- The finalized registry of a class with states `A`, `B`, an immediate
condition `cA` on `A` and an action `boom` bound to `cA`. -/
def regC5 : FinalRegistry :=
  { states := [("A", stA), ("B", stB)]
    recv_conditions := [("A", []), ("B", [])]
    conditions := [("A", [condA]), ("B", [])]
    ioevents := [("A", []), ("B", [])]
    timeout := [("A", [(none, none)]), ("B", [(none, none)])]
    actions := [("cA", [actBoom])]
    initial_states := [stA, stB]
    ionames := [] }

theorem action_exception_aborts_step_witness :
    (autoA.next regC5 RawOutput.noneV
        (fun n => if n = "cA" then .requests ⟨"B", true, false, false⟩ else .returns)
        (fun n => n == "boom")).2 = .exn
    ∧ (autoA.next regC5 RawOutput.noneV
        (fun n => if n = "cA" then .requests ⟨"B", true, false, false⟩ else .returns)
        (fun n => n == "boom")).1.state = autoA.state :=
  action_exception_aborts_step regC5 autoA RawOutput.noneV
    (fun n => if n = "cA" then .requests ⟨"B", true, false, false⟩ else .returns)
    (fun n => n == "boom") [] condA [] ⟨"B", true, false, false⟩ [actBoom] actBoom
    (by simp [autoA, initAutomaton]) rfl rfl rfl (by simp) rfl rfl (by decide)

/-! ## C2 — which initial state `start` picks

The metaclass collects the decorated members by walking `c.__dict__
.iteritems()` and then `members.itervalues()` (lines 142-151): Python 2
plain-dict iteration, whose order is hash-based and bears no fixed relation
to the textual declaration order.  The list `ms` fed to the passes is
therefore the *iteration order* — some permutation of the declared members
chosen by the hash table, not by the program. -/

lemma applyPass1_initial_states (r : Registry) (m : Member) :
    (applyPass1 r m).initial_states
      = r.initial_states
        ++ (if m.atmt_type = AtmtType.state ∧ m.atmt_initial then [m] else []) := by
  cases h : m.atmt_type <;> simp only [applyPass1, h] <;>
    first
    | (cases hi : m.atmt_initial <;> simp [hi])
    | simp

lemma pass1_initial_states (ms : List Member) (r : Registry) :
    (pass1 ms r).initial_states = r.initial_states ++ initialStateMembers ms := by
  induction ms generalizing r with
  | nil => simp [pass1, initialStateMembers]
  | cons m ms ih =>
    show (pass1 ms (applyPass1 r m)).initial_states = _
    rw [ih, applyPass1_initial_states]
    by_cases h : m.atmt_type = AtmtType.state ∧ m.atmt_initial <;>
      simp [initialStateMembers, h]

lemma appendActions_initial_states (m : Member) (l : List (String × Int))
    (r r' : Registry) (h : appendActions m r l = .ok r') :
    r'.initial_states = r.initial_states := by
  induction l generalizing r with
  | nil =>
    simp only [appendActions] at h
    cases h
    rfl
  | cons cp rest ih =>
    simp only [appendActions] at h
    cases hl : dappendAt r.actions cp.1 m with
    | none => rw [hl] at h; cases h
    | some acts =>
      rw [hl] at h
      exact ih { r with actions := acts } h

lemma applyPass2_initial_states (r r' : Registry) (m : Member)
    (h : applyPass2 r m = .ok r') : r'.initial_states = r.initial_states := by
  cases htype : m.atmt_type <;> simp only [applyPass2, htype] at h
  case state => cases h; rfl
  case action => exact appendActions_initial_states m m.atmt_cond r r' h
  all_goals
    first
    | (cases hl : dappendAt r.conditions m.atmt_state m <;> rw [hl] at h <;>
        cases h <;> rfl)
    | (cases hl : dappendAt r.recv_conditions m.atmt_state m <;> rw [hl] at h <;>
        cases h <;> rfl)
    | (cases hl : dappendAt r.ioevents m.atmt_state m <;> rw [hl] at h <;>
        cases h <;> rfl)
    | (cases hl : dappendAt r.timeout m.atmt_state (m.atmt_timeout, m) <;>
        rw [hl] at h <;> cases h <;> rfl)

lemma pass2_initial_states (ms : List Member) (r r' : Registry)
    (h : pass2 ms r = .ok r') : r'.initial_states = r.initial_states := by
  induction ms generalizing r with
  | nil =>
    simp only [pass2] at h
    cases h
    rfl
  | cons m ms ih =>
    simp only [pass2] at h
    cases ha : applyPass2 r m with
    | error e => rw [ha] at h; cases h
    | ok r1 =>
      rw [ha] at h
      rw [ih r1 h, applyPass2_initial_states r r1 m ha]

/-- The registry built by the metaclass lists the initial states in the
order in which the member iteration yielded them. -/
lemma buildRegistry_initial_states (ms : List Member) (reg : FinalRegistry)
    (h : buildRegistry ms = .ok reg) :
    reg.initial_states = initialStateMembers ms := by
  unfold buildRegistry at h
  cases hp : pass2 ms (pass1 ms emptyRegistry) with
  | error e => rw [hp] at h; cases h
  | ok r =>
    rw [hp] at h
    cases h
    show r.initial_states = _
    rw [pass2_initial_states ms _ r hp, pass1_initial_states ms emptyRegistry]
    rfl

/-- The finalized registry that `buildRegistry [stB, stA]` computes: the
class declaring the two initial states `A` and `B`, whose members the dict
iteration happened to yield in the order B, A. -/
def regBA : FinalRegistry :=
  { states := [("B", stB), ("A", stA)]
    recv_conditions := [("B", []), ("A", [])]
    conditions := [("B", []), ("A", [])]
    ioevents := [("B", []), ("A", [])]
    timeout := [("B", [(none, none)]), ("A", [(none, none)])]
    actions := []
    initial_states := [stB, stA]
    ionames := [] }

/-- Claim C2 counterexample.  A class declares the initial states A then B
(declaration order `[stA, stB]`, first-declared initial `stA`).  `[stB, stA]`
is a possible dict iteration order of those members (a permutation of the
declaration order, chosen by the hash table and not by the program).  Built
over that order, `initial_states` begins with B, and `start` sets the
current state to B — not the first-declared A.  So "start() sets the
current state to the initial state that appears first in registration order
(the first declared)" fails on the code. -/
theorem start_not_first_declared_cex :
    [stB, stA].Perm [stA, stB]
    ∧ (initialStateMembers [stA, stB]).head? = some stA
    ∧ buildRegistry [stB, stA] = .ok regBA
    ∧ initAutomaton.start regBA 0 1
        = .ok { initAutomaton with
                running := true
                debug_level := 0
                store_packets := 1
                state := ⟨"B", true, false, false⟩
                packets := [] }
    ∧ stB.atmt_state ≠ stA.atmt_state := by
  refine ⟨by decide, rfl, rfl, rfl, by decide⟩

/-- Claim C2 (amended): "For every automaton class that declares more than
one initial state, start() sets the current state to the head of
initial_states — the first initial state in the order in which the
metaclass's dict iteration yielded the decorated members, a hash-determined
permutation of the declaration order that need not put the first-declared
initial state first — and stepping begins from that state."  `declared` is
the textual declaration order, `ms` the member-iteration order actually
walked by the metaclass. -/
theorem start_picks_head_of_member_iteration (declared ms : List Member)
    (reg : FinalRegistry) (st : Automaton) (d s : Nat) (m : Member) (rest : List Member)
    (hperm : ms.Perm declared)
    (hb : buildRegistry ms = .ok reg)
    (hi : initialStateMembers ms = m :: rest)
    (hmore : rest ≠ []) :
    st.start reg d s
      = .ok { st with
              running := true
              debug_level := d
              store_packets := s
              state := ⟨m.atmt_state, m.atmt_initial, m.atmt_final, m.atmt_error⟩
              packets := [] } := by
  have h := buildRegistry_initial_states ms reg hb
  rw [hi] at h
  simp [Automaton.start, Automaton.parse_args, h]

theorem start_picks_head_of_member_iteration_witness :
    initAutomaton.start regBA 3 1
      = .ok { initAutomaton with
              running := true
              debug_level := 3
              store_packets := 1
              state := ⟨"B", true, false, false⟩
              packets := [] } :=
  start_picks_head_of_member_iteration [stA, stB] [stB, stA] regBA initAutomaton 3 1
    stB [stA] (by decide) rfl rfl (by decide)

/-! ## C7 — ObjectPipe coherence and FIFO order -/

/-- Generalized invariant for `runOps`: starting from a pipe whose queue
length equals its unread byte count, a recv-safe operation sequence runs to
completion, preserves the invariant, and the received values are exactly the
oldest `numRecvs` entries of the queue-plus-sent stream, in order. -/
lemma runOps_spec {α : Type} (ops : List (PipeOp α)) (p : ObjectPipe α)
    (hinv : p.queue.length = p.pipeBytes)
    (hsafe : recvSafe p.queue.length ops = true) :
    ∃ pf received, runOps ops p = some (pf, received)
      ∧ pf.queue.length = pf.pipeBytes
      ∧ received = (p.queue ++ sentValues ops).take (numRecvs ops)
      ∧ pf.queue = (p.queue ++ sentValues ops).drop (numRecvs ops) := by
  induction ops generalizing p with
  | nil =>
    exact ⟨p, [], rfl, hinv, by simp [sentValues, numRecvs], by simp [sentValues, numRecvs]⟩
  | cons op ops ih =>
    cases op with
    | send a =>
      have hinv' : (p.send a).queue.length = (p.send a).pipeBytes := by
        simp [ObjectPipe.send, hinv]
      have hsafe' : recvSafe (p.send a).queue.length ops = true := by
        simp only [ObjectPipe.send, List.length_append, List.length_cons, List.length_nil]
        simpa [recvSafe] using hsafe
      obtain ⟨pf, received, h1, h2, h3, h4⟩ := ih (p.send a) hinv' hsafe'
      refine ⟨pf, received, h1, h2, ?_, ?_⟩
      · rw [h3]; simp [ObjectPipe.send, sentValues, numRecvs]
      · rw [h4]; simp [ObjectPipe.send, sentValues, numRecvs]
    | recv =>
      obtain ⟨q, b⟩ := p
      cases q with
      | nil => simp [recvSafe] at hsafe
      | cons x xs =>
        simp only [List.length_cons] at hinv
        subst hinv
        have hsafe' : recvSafe xs.length ops = true := by
          simpa [recvSafe] using hsafe
        obtain ⟨pf, received, h1, h2, h3, h4⟩ :=
          ih ⟨xs, xs.length⟩ rfl hsafe'
        refine ⟨pf, x :: received, ?_, h2, ?_, ?_⟩
        · simp only [runOps, ObjectPipe.recv, h1]
        · rw [h3]; simp [sentValues, numRecvs]
        · rw [h4]; simp [sentValues, numRecvs]

/-- Claim C7: "For an ObjectPipe used by one producer and one consumer, after
any interleaved sequence of send and recv operations in which the number of
recvs never exceeds the number of sends, the number of queued objects equals
the number of unread sentinel bytes on the OS pipe, and each recv returns
the objects in the order they were sent (FIFO)."  Starting from a fresh
pipe, every recv-safe sequence completes; afterwards `queue.length =
pipeBytes`, and the sequence of received objects is the first `numRecvs`
sent objects in send order. -/
theorem objectPipe_coherence_fifo {α : Type} (ops : List (PipeOp α))
    (hsafe : recvSafe 0 ops = true) :
    ∃ pf received, runOps ops ObjectPipe.init = some (pf, received)
      ∧ pf.queue.length = pf.pipeBytes
      ∧ received = (sentValues ops).take (numRecvs ops) := by
  obtain ⟨pf, received, h1, h2, h3, _⟩ :=
    runOps_spec ops ObjectPipe.init rfl hsafe
  exact ⟨pf, received, h1, h2, by simpa [ObjectPipe.init] using h3⟩

theorem objectPipe_coherence_fifo_witness :
    recvSafe 0 [PipeOp.send 10, .send 20, .recv, .send 30, .recv] = true
    ∧ ∃ pf received,
        runOps [PipeOp.send 10, .send 20, .recv, .send 30, .recv] ObjectPipe.init
          = some (pf, received)
        ∧ pf.queue.length = pf.pipeBytes
        ∧ received = (sentValues [PipeOp.send 10, .send 20, .recv, .send 30, .recv]).take
            (numRecvs [PipeOp.send 10, .send 20, .recv, .send 30, .recv]) :=
  ⟨by decide, objectPipe_coherence_fifo [PipeOp.send 10, .send 20, .recv, .send 30, .recv]
    (by decide)⟩

/-! ## C1 — what registry construction does and does not detect -/

lemma all_congrB {α : Type u} (l : List α) (f g : α → Bool)
    (h : ∀ x ∈ l, f x = g x) : l.all f = l.all g := by
  induction l with
  | nil => rfl
  | cons x xs ih =>
    simp only [List.all_cons, h x (List.mem_cons_self x xs)]
    rw [ih (fun y hy => h y (List.mem_cons_of_mem x hy))]

lemma memB_cons (k y : String) (ys : List String) :
    memB k (y :: ys) = (decide (y = k) || memB k ys) := by
  by_cases h : y = k <;> simp [memB, h]

lemma dappendAt_eq_none_iff {β : Type u} (d : List (String × List β)) (k : String) (v : β) :
    dappendAt d k v = none ↔ hasKey d k = false := by
  induction d with
  | nil => simp [dappendAt, hasKey]
  | cons e rest ih =>
    obtain ⟨k1, vs⟩ := e
    by_cases h : k1 = k
    · simp [dappendAt, hasKey, h]
    · simp only [dappendAt, hasKey, if_neg h]
      rw [← ih]
      cases dappendAt rest k v <;> simp

lemma dappendAt_some_hasKey {β : Type u} (d : List (String × List β)) (k : String) (v : β)
    (d' : List (String × List β)) (h : dappendAt d k v = some d') :
    hasKey d k = true := by
  cases hk : hasKey d k with
  | false => rw [(dappendAt_eq_none_iff d k v).2 hk] at h; cases h
  | true => rfl

lemma dappendAt_hasKey {β : Type u} (d d' : List (String × List β)) (k : String) (v : β)
    (h : dappendAt d k v = some d') (k' : String) : hasKey d' k' = hasKey d k' := by
  induction d generalizing d' with
  | nil => simp [dappendAt] at h
  | cons e rest ih =>
    obtain ⟨k1, vs⟩ := e
    by_cases hk : k1 = k
    · simp only [dappendAt, if_pos hk] at h
      cases h
      simp [hasKey]
    · simp only [dappendAt, if_neg hk] at h
      cases hd : dappendAt rest k v with
      | none => rw [hd] at h; cases h
      | some rest' =>
        rw [hd] at h
        cases h
        simp [hasKey, ih rest' hd]

lemma hasKey_dinsert {β : Type u} (d : List (String × β)) (k k' : String) (v : β) :
    hasKey (dinsert d k v) k' = (decide (k = k') || hasKey d k') := by
  induction d with
  | nil => by_cases h : k = k' <;> simp [dinsert, hasKey, h]
  | cons e rest ih =>
    obtain ⟨k1, v1⟩ := e
    by_cases h : k1 = k
    · subst h
      by_cases h2 : k1 = k' <;> simp [dinsert, hasKey, h2]
    · by_cases h2 : k1 = k'
      · subst h2
        simp [dinsert, hasKey, h, ih]
      · simp [dinsert, hasKey, h, h2, ih]

/-- The per-member reference check against the current key sets of the
registry tables: what the second pass's dictionary indexings need. -/
def refsOkIn (r : Registry) (m : Member) : Bool :=
  match m.atmt_type with
  | .condition => hasKey r.conditions m.atmt_state
  | .recv => hasKey r.recv_conditions m.atmt_state
  | .ioevent => hasKey r.ioevents m.atmt_state
  | .timeout => hasKey r.timeout m.atmt_state
  | .action => m.atmt_cond.all (fun c => hasKey r.actions c.1)
  | .state => true

lemma appendActions_ok (m : Member) (l : List (String × Int)) (r : Registry) :
    okB (appendActions m r l) = l.all (fun c => hasKey r.actions c.1) := by
  induction l generalizing r with
  | nil => rfl
  | cons cp rest ih =>
    obtain ⟨c, pr⟩ := cp
    simp only [appendActions, List.all_cons]
    cases hd : dappendAt r.actions c m with
    | none =>
      simp [okB, (dappendAt_eq_none_iff r.actions c m).1 hd]
    | some acts =>
      have hpres := dappendAt_hasKey r.actions acts c m hd
      rw [ih { r with actions := acts }]
      simp only [dappendAt_some_hasKey r.actions c m acts hd, Bool.true_and]
      exact all_congrB rest _ _ (fun c' _ => by simp [hpres])

lemma appendActions_keys (m : Member) (l : List (String × Int)) (r r' : Registry)
    (h : appendActions m r l = .ok r') :
    r'.conditions = r.conditions ∧ r'.recv_conditions = r.recv_conditions
    ∧ r'.ioevents = r.ioevents ∧ r'.timeout = r.timeout
    ∧ (∀ k, hasKey r'.actions k = hasKey r.actions k) := by
  induction l generalizing r with
  | nil =>
    simp only [appendActions] at h
    cases h
    exact ⟨rfl, rfl, rfl, rfl, fun _ => rfl⟩
  | cons cp rest ih =>
    simp only [appendActions] at h
    cases hd : dappendAt r.actions cp.1 m with
    | none => rw [hd] at h; cases h
    | some acts =>
      rw [hd] at h
      obtain ⟨h1, h2, h3, h4, h5⟩ := ih { r with actions := acts } h
      exact ⟨h1, h2, h3, h4,
        fun k => (h5 k).trans (dappendAt_hasKey r.actions acts cp.1 m hd k)⟩

lemma applyPass2_ok (r : Registry) (m : Member) :
    okB (applyPass2 r m) = refsOkIn r m := by
  cases htype : m.atmt_type <;> simp only [applyPass2, refsOkIn, htype]
  case state => rfl
  case action => exact appendActions_ok m m.atmt_cond r
  case condition =>
    cases hd : dappendAt r.conditions m.atmt_state m with
    | none => simp [okB, (dappendAt_eq_none_iff _ _ _).1 hd]
    | some d => simp [okB, dappendAt_some_hasKey _ _ _ _ hd]
  case recv =>
    cases hd : dappendAt r.recv_conditions m.atmt_state m with
    | none => simp [okB, (dappendAt_eq_none_iff _ _ _).1 hd]
    | some d => simp [okB, dappendAt_some_hasKey _ _ _ _ hd]
  case ioevent =>
    cases hd : dappendAt r.ioevents m.atmt_state m with
    | none => simp [okB, (dappendAt_eq_none_iff _ _ _).1 hd]
    | some d => simp [okB, dappendAt_some_hasKey _ _ _ _ hd]
  case timeout =>
    cases hd : dappendAt r.timeout m.atmt_state (m.atmt_timeout, m) with
    | none => simp [okB, (dappendAt_eq_none_iff _ _ _).1 hd]
    | some d => simp [okB, dappendAt_some_hasKey _ _ _ _ hd]

lemma applyPass2_hasKeys (r r' : Registry) (m : Member) (h : applyPass2 r m = .ok r') :
    (∀ k, hasKey r'.conditions k = hasKey r.conditions k)
    ∧ (∀ k, hasKey r'.recv_conditions k = hasKey r.recv_conditions k)
    ∧ (∀ k, hasKey r'.ioevents k = hasKey r.ioevents k)
    ∧ (∀ k, hasKey r'.timeout k = hasKey r.timeout k)
    ∧ (∀ k, hasKey r'.actions k = hasKey r.actions k) := by
  cases htype : m.atmt_type <;> simp only [applyPass2, htype] at h
  case state =>
    cases h
    exact ⟨fun _ => rfl, fun _ => rfl, fun _ => rfl, fun _ => rfl, fun _ => rfl⟩
  case action =>
    obtain ⟨h1, h2, h3, h4, h5⟩ := appendActions_keys m m.atmt_cond r r' h
    exact ⟨fun k => by rw [h1], fun k => by rw [h2], fun k => by rw [h3],
      fun k => by rw [h4], h5⟩
  case condition =>
    cases hd : dappendAt r.conditions m.atmt_state m with
    | none => rw [hd] at h; cases h
    | some d =>
      rw [hd] at h
      cases h
      exact ⟨dappendAt_hasKey _ _ _ _ hd, fun _ => rfl, fun _ => rfl, fun _ => rfl,
        fun _ => rfl⟩
  case recv =>
    cases hd : dappendAt r.recv_conditions m.atmt_state m with
    | none => rw [hd] at h; cases h
    | some d =>
      rw [hd] at h
      cases h
      exact ⟨fun _ => rfl, dappendAt_hasKey _ _ _ _ hd, fun _ => rfl, fun _ => rfl,
        fun _ => rfl⟩
  case ioevent =>
    cases hd : dappendAt r.ioevents m.atmt_state m with
    | none => rw [hd] at h; cases h
    | some d =>
      rw [hd] at h
      cases h
      exact ⟨fun _ => rfl, fun _ => rfl, dappendAt_hasKey _ _ _ _ hd, fun _ => rfl,
        fun _ => rfl⟩
  case timeout =>
    cases hd : dappendAt r.timeout m.atmt_state (m.atmt_timeout, m) with
    | none => rw [hd] at h; cases h
    | some d =>
      rw [hd] at h
      cases h
      exact ⟨fun _ => rfl, fun _ => rfl, fun _ => rfl, dappendAt_hasKey _ _ _ _ hd,
        fun _ => rfl⟩

lemma refsOkIn_congr (r r' : Registry)
    (hc : ∀ k, hasKey r'.conditions k = hasKey r.conditions k)
    (hr : ∀ k, hasKey r'.recv_conditions k = hasKey r.recv_conditions k)
    (hio : ∀ k, hasKey r'.ioevents k = hasKey r.ioevents k)
    (ht : ∀ k, hasKey r'.timeout k = hasKey r.timeout k)
    (ha : ∀ k, hasKey r'.actions k = hasKey r.actions k)
    (m : Member) : refsOkIn r' m = refsOkIn r m := by
  cases htype : m.atmt_type <;> simp only [refsOkIn, htype]
  case condition => exact hc m.atmt_state
  case recv => exact hr m.atmt_state
  case ioevent => exact hio m.atmt_state
  case timeout => exact ht m.atmt_state
  case action => exact all_congrB _ _ _ (fun c _ => ha c.1)

lemma pass2_ok (ms : List Member) (r : Registry) :
    okB (pass2 ms r) = ms.all (refsOkIn r) := by
  induction ms generalizing r with
  | nil => rfl
  | cons m ms ih =>
    simp only [pass2, List.all_cons]
    cases ha : applyPass2 r m with
    | error e =>
      have hm : refsOkIn r m = false := by rw [← applyPass2_ok r m, ha]; rfl
      simp [okB, hm]
    | ok r1 =>
      have hm : refsOkIn r m = true := by rw [← applyPass2_ok r m, ha]; rfl
      obtain ⟨h1, h2, h3, h4, h5⟩ := applyPass2_hasKeys r r1 m ha
      rw [ih r1, hm]
      simp only [Bool.true_and]
      exact all_congrB ms _ _ (fun m' _ => refsOkIn_congr r r1 h1 h2 h3 h4 h5 m')

lemma pass1_hasKeys (ms : List Member) (r : Registry) (k : String) :
    hasKey (pass1 ms r).conditions k
      = (hasKey r.conditions k || memB k (stateNames ms))
    ∧ hasKey (pass1 ms r).recv_conditions k
      = (hasKey r.recv_conditions k || memB k (stateNames ms))
    ∧ hasKey (pass1 ms r).ioevents k
      = (hasKey r.ioevents k || memB k (stateNames ms))
    ∧ hasKey (pass1 ms r).timeout k
      = (hasKey r.timeout k || memB k (stateNames ms))
    ∧ hasKey (pass1 ms r).actions k
      = (hasKey r.actions k || memB k (condNames ms)) := by
  induction ms generalizing r with
  | nil => simp [pass1, stateNames, condNames, memB]
  | cons m ms ih =>
    obtain ⟨ih1, ih2, ih3, ih4, ih5⟩ := ih (applyPass1 r m)
    have e : pass1 (m :: ms) r = pass1 ms (applyPass1 r m) := rfl
    cases htype : m.atmt_type
    case state =>
      refine ⟨?_, ?_, ?_, ?_, ?_⟩ <;>
        rw [e] <;>
        first
          | (rw [ih5]
             simp [applyPass1, htype, stateNames, condNames, isCondLike])
          | (rw [ih1]
             simp [applyPass1, htype, hasKey_dinsert, stateNames, condNames, memB_cons,
               Bool.or_assoc, Bool.or_comm, Bool.or_left_comm])
          | (rw [ih2]
             simp [applyPass1, htype, hasKey_dinsert, stateNames, condNames, memB_cons,
               Bool.or_assoc, Bool.or_comm, Bool.or_left_comm])
          | (rw [ih3]
             simp [applyPass1, htype, hasKey_dinsert, stateNames, condNames, memB_cons,
               Bool.or_assoc, Bool.or_comm, Bool.or_left_comm])
          | (rw [ih4]
             simp [applyPass1, htype, hasKey_dinsert, stateNames, condNames, memB_cons,
               Bool.or_assoc, Bool.or_comm, Bool.or_left_comm])
    case action =>
      have hr : applyPass1 r m = r := by simp [applyPass1, htype]
      obtain ⟨j1, j2, j3, j4, j5⟩ := ih r
      refine ⟨?_, ?_, ?_, ?_, ?_⟩ <;> rw [e, hr] <;>
        simp [j1, j2, j3, j4, j5, stateNames, condNames, isCondLike, htype]
    all_goals
      refine ⟨?_, ?_, ?_, ?_, ?_⟩ <;> rw [e] <;>
        first
          | (rw [ih5]
             simp [applyPass1, htype, hasKey_dinsert, stateNames, condNames, isCondLike,
               memB_cons, Bool.or_assoc, Bool.or_comm, Bool.or_left_comm])
          | (rw [ih1]
             simp [applyPass1, htype, stateNames, condNames, isCondLike])
          | (rw [ih2]
             simp [applyPass1, htype, stateNames, condNames, isCondLike])
          | (rw [ih3]
             simp [applyPass1, htype, stateNames, condNames, isCondLike])
          | (rw [ih4]
             simp [applyPass1, htype, stateNames, condNames, isCondLike])

lemma refsOkIn_pass1_empty (ms : List Member) (m : Member) :
    refsOkIn (pass1 ms emptyRegistry) m = memberRefsOk ms m := by
  cases htype : m.atmt_type <;> simp only [refsOkIn, memberRefsOk, htype]
  case condition =>
    rw [(pass1_hasKeys ms emptyRegistry m.atmt_state).1]
    simp [emptyRegistry, hasKey]
  case recv =>
    rw [(pass1_hasKeys ms emptyRegistry m.atmt_state).2.1]
    simp [emptyRegistry, hasKey]
  case ioevent =>
    rw [(pass1_hasKeys ms emptyRegistry m.atmt_state).2.2.1]
    simp [emptyRegistry, hasKey]
  case timeout =>
    rw [(pass1_hasKeys ms emptyRegistry m.atmt_state).2.2.2.1]
    simp [emptyRegistry, hasKey]
  case action =>
    refine all_congrB _ _ _ (fun c _ => ?_)
    rw [(pass1_hasKeys ms emptyRegistry c.1).2.2.2.2]
    simp [emptyRegistry, hasKey]

/-- Claim C1 (amended): registry construction fails — with a `KeyError`, not
a dedicated `InvalidDeclaration` — exactly when a condition (immediate,
receive, timeout or I/O event) references an unknown state or an action
references an unknown condition.  The other two faults of the original claim
are NOT detected at class build time: two states sharing a name are silently
merged (last registration wins) and a class with no initial state builds
successfully (its failure is deferred to `start`, which hits `IndexError`
on `initial_states[0]`).  For every class free of unknown-state and
unknown-condition references, registry construction succeeds. -/
theorem buildRegistry_ok_iff_refsValid (ms : List Member) :
    okB (buildRegistry ms) = refsValid ms := by
  have h1 : okB (buildRegistry ms) = okB (pass2 ms (pass1 ms emptyRegistry)) := by
    unfold buildRegistry
    cases pass2 ms (pass1 ms emptyRegistry) <;> rfl
  rw [h1, pass2_ok]
  show _ = List.all ms (memberRefsOk ms)
  exact all_congrB ms _ _ (fun m _ => refsOkIn_pass1_empty ms m)

def dupA1 : Member := { name := "A", atmt_type := .state, atmt_state := "A" }

def dupA2 : Member := { name := "A2", atmt_type := .state, atmt_state := "A" }

/-- Claim C1 counterexample: the class whose decorated members are the two
states `dupA1` and `dupA2` has two states sharing the name "A" and no state
marked initial, yet registry construction succeeds — it does not fail at
class build time as the claim requires. -/
theorem buildRegistry_accepts_faulty_class :
    stateNames [dupA1, dupA2] = ["A", "A"]
    ∧ initialStateMembers [dupA1, dupA2] = []
    ∧ okB (buildRegistry [dupA1, dupA2]) = true := by
  refine ⟨rfl, rfl, rfl⟩
